import Mathlib

/-!
# Verification of the action-packer runner/pool engine

Shallow embedding of the credential resolver
(`src/backend/src/services/credentialResolver.ts`), the reconciler's orphan
directory sweep and timeout wrapper (specified in §4.5 of the spec and
exercised by the reconciler test file), and the architecture-selection rule
for runner/pool creation payloads (specified in §3/§8 and exercised by the
RunnerManager/PoolManager component tests).
-/

set_option autoImplicit false

namespace ActionPacker

/-! ## Credential resolver data model (from `credentialResolver.ts` / `schema.ts` types) -/

/-- The `type` column of a credential row: `'pat' | 'github_app'`. -/
inductive CredType where
  | pat
  | github_app
  deriving DecidableEq, Repr

/-- Sealed secret material handed to `decrypt`: `{encrypted, iv, authTag}`. -/
structure EncryptedData where
  encrypted : String
  iv : String
  authTag : String
  deriving DecidableEq, Repr

/-- A row of the `credentials` table (`CredentialRow`).  `installation_id` is a
nullable JS number, embedded as `Option Int`. -/
structure CredentialRow where
  id : String
  type : CredType
  scope : String
  target : String
  encrypted_token : String
  iv : String
  auth_tag : String
  installation_id : Option Int
  deriving DecidableEq, Repr

/-- The singleton `github_app` configuration row (`GitHubAppRow`). -/
structure GitHubAppRow where
  app_id : String
  client_id : String
  encrypted_private_key : String
  private_key_iv : String
  private_key_auth_tag : String
  deriving DecidableEq, Repr

/-- The constructor argument of `new GitHubAppClient({...})` in the app path of
`resolveCredentialToken`. -/
structure GitHubAppClientConfig where
  privateKey : String
  clientId : String
  appId : String
  installationId : Int
  deriving DecidableEq, Repr

/-- The result of resolving a credential to a token (`ResolvedCredential`). -/
structure ResolvedCredential where
  token : String
  scope : String
  target : String
  type : CredType
  installationId : Option Int
  deriving DecidableEq, Repr

/-- The errors `resolveCredentialToken` can throw, by their source-code message:
`MissingInstallation` is `'GitHub App credential missing installation_id'` and
`NotConfigured` is `'GitHub App not configured'`. -/
inductive ResolveError where
  | MissingInstallation
  | NotConfigured
  deriving DecidableEq, Repr

/-- External collaborators of the resolver, passed as oracles: the `decrypt`
primitive from `utils/crypto`, the `github_app` row the database holds (the
`getGitHubApp` query result), and the network token exchange performed by
`GitHubAppClient.getToken`. -/
structure ResolverEnv where
  decrypt : EncryptedData → String
  githubApp : Option GitHubAppRow
  exchangeToken : GitHubAppClientConfig → String

/-- JavaScript truthiness of the nullable number `credential.installation_id`:
the guard `!credential.installation_id` fires when the field is `null`,
`undefined` or `0`. -/
def numTruthy : Option Int → Bool
  | none => false
  | some n => n ≠ 0

/-- The function `resolveCredentialToken` from `credentialResolver.ts`, with the number of
network token exchanges performed returned alongside the result.
PAT path: decrypt the stored secret and return it with the credential's
scope/target.  App path: require a (truthy) installation id, require the app
configuration row, decrypt the private key, build a `GitHubAppClient` and
exchange for an installation token. -/
def resolveCredentialToken (env : ResolverEnv) (credential : CredentialRow) :
    Except ResolveError ResolvedCredential × Nat :=
  if credential.type = CredType.pat then
    let token := env.decrypt
      { encrypted := credential.encrypted_token
        iv := credential.iv
        authTag := credential.auth_tag }
    (Except.ok
      { token := token
        scope := credential.scope
        target := credential.target
        type := CredType.pat
        installationId := none }, 0)
  else if ¬ numTruthy credential.installation_id then
    (Except.error ResolveError.MissingInstallation, 0)
  else
    match env.githubApp with
    | none => (Except.error ResolveError.NotConfigured, 0)
    | some githubApp =>
      let privateKey := env.decrypt
        { encrypted := githubApp.encrypted_private_key
          iv := githubApp.private_key_iv
          authTag := githubApp.private_key_auth_tag }
      let token := env.exchangeToken
        { privateKey := privateKey
          clientId := githubApp.client_id
          appId := githubApp.app_id
          installationId := credential.installation_id.getD 0 }
      (Except.ok
        { token := token
          scope := credential.scope
          target := credential.target
          type := CredType.github_app
          installationId := credential.installation_id }, 1)

/-! ## Reconciler: orphan directory sweep

The implementation file `reconciler.js` is not part of the sources at hand;
its behaviour is fixed by §4.5 of the spec and mirrored by the inline logic of
the reconciler test file. -/

/-- One entry under the runner root, as returned by
`fs.readdir(RUNNERS_DIR, {withFileTypes: true})`: a name and the
`isDirectory()` flag. -/
structure DirEntry where
  name : String
  isDir : Bool
  deriving DecidableEq, Repr

/-- The filesystem state the sweep sees: whether the runner root exists, and
the entries directly under it. -/
structure FsState where
  rootExists : Bool
  entries : List DirEntry
  deriving DecidableEq, Repr

/-- A persisted runner record as the sweep consults it: the runner id (used as
the directory name by default) and the optional explicitly stored directory
name (`runner_dir`). -/
structure RunnerRec where
  id : String
  runner_dir : Option String
  deriving DecidableEq, Repr

/-- A directory name is referenced by the persisted runners when it equals
some runner's id or some runner's explicitly stored directory name. -/
def referencedName (runners : List RunnerRec) (name : String) : Bool :=
  runners.any fun r => r.id = name || r.runner_dir = some name

/-- Recursive forced removal (`fs.rm`) of one entry name: the entry
disappears from the listing. -/
def removeEntry (entries : List DirEntry) (name : String) : List DirEntry :=
  entries.filter fun e => e.name ≠ name

/-- Modelled from the spec: the per-entry loop of `cleanupOrphanedDirectories`
(`reconciler.js`, absent from the sources; §4.5 step 1 and the reconciler
tests).  For each listed directory name: if it is referenced by a persisted
runner (by id or by stored directory name) it is skipped, otherwise it is
removed recursively and the removed counter is incremented. -/
def sweepLoop (runners : List RunnerRec) :
    List String → List DirEntry → Nat → List DirEntry × Nat
  | [], entries, removed => (entries, removed)
  | d :: rest, entries, removed =>
    if referencedName runners d then
      sweepLoop runners rest entries removed
    else
      sweepLoop runners rest (removeEntry entries d) (removed + 1)

/-- Modelled from the spec: `cleanupOrphanedDirectories` (`reconciler.js`,
absent from the sources; §4.5 step 1 and the reconciler tests).  If the runner
root does not exist the sweep is a no-op returning zero; otherwise it lists
the directory entries under the root and runs the removal loop, returning the
new filesystem state and the count of removed entries. -/
def cleanupOrphanedDirectories (fs : FsState) (runners : List RunnerRec) :
    FsState × Nat :=
  if fs.rootExists then
    let directories := (fs.entries.filter fun e => e.isDir).map fun e => e.name
    let result := sweepLoop runners directories fs.entries 0
    ({ fs with entries := result.1 }, result.2)
  else
    (fs, 0)

/-- An entry survives the loop over the directory-name list `ds` exactly when
every unreferenced name of `ds` differs from its own name. -/
def survives (runners : List RunnerRec) (ds : List String) (e : DirEntry) : Bool :=
  ds.all fun d => referencedName runners d || e.name ≠ d

theorem sweepLoop_spec (runners : List RunnerRec) (ds : List String)
    (entries : List DirEntry) (removed : Nat) :
    sweepLoop runners ds entries removed =
      (entries.filter (survives runners ds),
        removed + (ds.filter fun d => ¬ referencedName runners d).length) := by
  induction ds generalizing entries removed with
  | nil =>
    rw [sweepLoop]
    refine congrArg₂ Prod.mk ?_ (by simp)
    exact (List.filter_eq_self.mpr fun e _ => by simp [survives]).symm
  | cons d rest ih =>
    by_cases h : referencedName runners d
    · rw [sweepLoop, if_pos h, ih]
      refine congrArg₂ Prod.mk ?_ ?_
      · exact List.filter_congr fun e _ => by simp [survives, h]
      · simp [h]
    · rw [sweepLoop, if_neg h, ih]
      refine congrArg₂ Prod.mk ?_ ?_
      · rw [removeEntry, List.filter_filter]
        exact List.filter_congr fun e _ => by
          simp only [survives, List.all_cons, Bool.and_comm]
          simp [h]
      · simp [h, Nat.add_assoc, Nat.add_comm 1]

/-- On a filesystem whose entry names are distinct (as they are in a real
directory listing), an entry survives the sweep's directory-name list exactly
when it is not a directory or its name is referenced. -/
theorem survives_eq_of_nodup (fs : FsState) (runners : List RunnerRec)
    (hnodup : (fs.entries.map DirEntry.name).Nodup) :
    ∀ e ∈ fs.entries,
      survives runners
          ((fs.entries.filter fun e => e.isDir).map fun e => e.name) e =
        (!e.isDir || referencedName runners e.name) := by
  intro e he
  have hinj := List.inj_on_of_nodup_map hnodup
  by_cases hr : referencedName runners e.name = true
  · have hs : survives runners
        ((fs.entries.filter fun e => e.isDir).map fun e => e.name) e = true := by
      simp only [survives, List.all_eq_true]
      intro d _
      by_cases hne : e.name = d
      · simp [← hne, hr]
      · simp [hne]
    rw [hs, hr, Bool.or_true]
  · rw [Bool.not_eq_true] at hr
    by_cases hdir : e.isDir = true
    · have hd : e.name ∈ (fs.entries.filter fun e => e.isDir).map
          fun e => e.name := by
        simp only [List.mem_map, List.mem_filter]
        exact ⟨e, ⟨he, hdir⟩, rfl⟩
      have hs : survives runners
          ((fs.entries.filter fun e => e.isDir).map fun e => e.name) e
            = false := by
        simp only [survives, List.all_eq_false]
        exact ⟨e.name, hd, by simp [hr]⟩
      rw [hs, hdir, hr]
      rfl
    · have hs : survives runners
          ((fs.entries.filter fun e => e.isDir).map fun e => e.name) e
            = true := by
        simp only [survives, List.all_eq_true]
        intro d hd
        rcases List.mem_map.mp hd with ⟨e', he', rfl⟩
        rcases List.mem_filter.mp he' with ⟨he'm, hdir'⟩
        by_cases hne : e.name = e'.name
        · exact absurd (hinj he he'm hne ▸ hdir') hdir
        · simp [hne]
      rw [hs, Bool.not_eq_true] at *
      rw [hdir]
      rfl

/-- Unfolding of one sweep on an existing root, in terms of `survives`. -/
theorem cleanup_eq (fs : FsState) (runners : List RunnerRec)
    (hroot : fs.rootExists = true) :
    cleanupOrphanedDirectories fs runners =
      ({ fs with
          entries := fs.entries.filter
              (survives runners
                ((fs.entries.filter fun e => e.isDir).map fun e => e.name)) },
        (((fs.entries.filter fun e => e.isDir).map fun e => e.name).filter
          fun d => ¬ referencedName runners d).length) := by
  simp only [cleanupOrphanedDirectories, hroot, if_true, sweepLoop_spec,
    Nat.zero_add]

/-- If every directory entry under an existing root is referenced by a
persisted runner, the sweep removes nothing and returns zero. -/
theorem cleanup_fix (fs : FsState) (runners : List RunnerRec)
    (hroot : fs.rootExists = true)
    (hall : ∀ e ∈ fs.entries, e.isDir = true →
      referencedName runners e.name = true) :
    cleanupOrphanedDirectories fs runners = (fs, 0) := by
  rw [cleanup_eq fs runners hroot]
  refine congrArg₂ Prod.mk ?_ ?_
  · have hentries : fs.entries.filter
        (survives runners
          ((fs.entries.filter fun e => e.isDir).map fun e => e.name)) =
        fs.entries := by
      refine List.filter_eq_self.mpr fun e he => ?_
      simp only [survives, List.all_eq_true]
      intro d hd
      rcases List.mem_map.mp hd with ⟨e', he', rfl⟩
      rcases List.mem_filter.mp he' with ⟨he'm, hdir'⟩
      simp [hall e' he'm hdir']
    rw [hentries]
  · have hnone : (((fs.entries.filter fun e => e.isDir).map
        fun e => e.name).filter fun d => ¬ referencedName runners d) = [] := by
      refine List.filter_eq_nil_iff.mpr fun d hd => ?_
      rcases List.mem_map.mp hd with ⟨e', he', rfl⟩
      rcases List.mem_filter.mp he' with ⟨he'm, hdir'⟩
      simp [hall e' he'm hdir']
    rw [hnone]
    rfl

/-- Declarative description of one sweep on an existing root with distinct
entry names: the surviving entries are exactly those that are not directories
or whose name is referenced, and the returned count is the number of
unreferenced directory entries. -/
theorem cleanup_spec (fs : FsState) (runners : List RunnerRec)
    (hroot : fs.rootExists = true)
    (hnodup : (fs.entries.map DirEntry.name).Nodup) :
    cleanupOrphanedDirectories fs runners =
      ({ fs with entries :=
          fs.entries.filter fun e => !e.isDir || referencedName runners e.name },
        (fs.entries.filter fun e => e.isDir && !referencedName runners e.name).length) := by
  rw [cleanup_eq fs runners hroot]
  refine congrArg₂ Prod.mk ?_ ?_
  · refine congrArg ({ fs with entries := · }) ?_
    exact List.filter_congr (survives_eq_of_nodup fs runners hnodup)
  · rw [List.filter_map, List.length_map, List.filter_filter]
    congr 1
    exact List.filter_congr fun e _ => by
      simp [Function.comp, decide_not, Bool.and_comm]

end ActionPacker

namespace ActionPacker

/-- C1: on an existing runner root whose entry names are distinct, one orphan
sweep removes exactly the directory entries referenced by no persisted runner
(neither as a runner id nor as a stored directory name): the surviving entries
are the non-directories and the referenced directories, every referenced
directory entry is left intact, and the returned count is the number of
removed (unreferenced directory) entries. -/
theorem C1_sweep_removes_exactly_orphans (fs : FsState)
    (runners : List RunnerRec) (hroot : fs.rootExists = true)
    (hnodup : (fs.entries.map DirEntry.name).Nodup) :
    (cleanupOrphanedDirectories fs runners).1.entries =
      (fs.entries.filter fun e => !e.isDir || referencedName runners e.name) ∧
    (cleanupOrphanedDirectories fs runners).2 =
      (fs.entries.filter fun e => e.isDir && !referencedName runners e.name).length ∧
    ∀ e ∈ fs.entries, e.isDir = true → referencedName runners e.name = true →
      e ∈ (cleanupOrphanedDirectories fs runners).1.entries := by
  rw [cleanup_spec fs runners hroot hnodup]
  refine ⟨rfl, rfl, ?_⟩
  intro e he _ hr
  exact List.mem_filter.mpr ⟨he, by simp [hr]⟩

/-- Witness for C1: a root with one referenced directory (by id), one
referenced directory (by stored directory name), one orphaned directory and a
stray file; the sweep removes exactly the orphan and counts one. -/
theorem C1_sweep_removes_exactly_orphans_witness :
    (cleanupOrphanedDirectories
        { rootExists := true
          entries := [⟨"r1", true⟩, ⟨"custom-dir", true⟩,
            ⟨"orphaned-uuid-1", true⟩, ⟨"notes.txt", false⟩] }
        [⟨"r1", none⟩, ⟨"r2", some "custom-dir"⟩]).1.entries =
      [⟨"r1", true⟩, ⟨"custom-dir", true⟩, ⟨"notes.txt", false⟩] ∧
    (cleanupOrphanedDirectories
        { rootExists := true
          entries := [⟨"r1", true⟩, ⟨"custom-dir", true⟩,
            ⟨"orphaned-uuid-1", true⟩, ⟨"notes.txt", false⟩] }
        [⟨"r1", none⟩, ⟨"r2", some "custom-dir"⟩]).2 = 1 := by
  have h := C1_sweep_removes_exactly_orphans
    { rootExists := true
      entries := [⟨"r1", true⟩, ⟨"custom-dir", true⟩,
        ⟨"orphaned-uuid-1", true⟩, ⟨"notes.txt", false⟩] }
    [⟨"r1", none⟩, ⟨"r2", some "custom-dir"⟩] rfl (by decide)
  refine ⟨?_, ?_⟩
  · rw [h.1]; decide
  · rw [h.2.1]; decide

/-- C7: the orphan sweep is idempotent: with no intervening state change, the
second of two consecutive sweeps removes nothing — it returns the first
sweep's filesystem state unchanged together with a count of zero. -/
theorem C7_sweep_idempotent (fs : FsState) (runners : List RunnerRec) :
    cleanupOrphanedDirectories
        (cleanupOrphanedDirectories fs runners).1 runners =
      ((cleanupOrphanedDirectories fs runners).1, 0) := by
  by_cases hroot : fs.rootExists = true
  · rw [cleanup_eq fs runners hroot]
    refine cleanup_fix _ runners hroot ?_
    intro e he hdir
    rcases List.mem_filter.mp he with ⟨hem, hsurv⟩
    have hds : e.name ∈ (fs.entries.filter fun e => e.isDir).map
        fun e => e.name := by
      simp only [List.mem_map, List.mem_filter]
      exact ⟨e, ⟨hem, hdir⟩, rfl⟩
    have := (List.all_eq_true.mp hsurv) e.name hds
    simpa using this
  · rw [Bool.not_eq_true] at hroot
    have h1 : cleanupOrphanedDirectories fs runners = (fs, 0) := by
      simp [cleanupOrphanedDirectories, hroot]
    rw [h1]
    simp [cleanupOrphanedDirectories, hroot]

/-- C8: if the runner root does not exist, the sweep is a no-op: it returns
the filesystem unchanged together with a count of zero, as a value rather
than an error. -/
theorem C8_sweep_noop_without_root (fs : FsState) (runners : List RunnerRec)
    (hroot : fs.rootExists = false) :
    cleanupOrphanedDirectories fs runners = (fs, 0) := by
  simp [cleanupOrphanedDirectories, hroot]

/-- Witness for C8 at a concrete missing root. -/
theorem C8_sweep_noop_without_root_witness :
    cleanupOrphanedDirectories
        { rootExists := false, entries := [] } [⟨"r1", none⟩] =
      ({ rootExists := false, entries := [] }, 0) :=
  C8_sweep_noop_without_root _ _ rfl

/-! ## Reconciler: timeout wrapper

`withTimeout` lives in `reconciler.js`, absent from the sources; its behaviour
is fixed by §4.5/§8 of the spec and by the inline implementation the
reconciler tests exercise. -/

/-- A promise's settlement behaviour in discrete milliseconds: it resolves at
some time with a value, rejects at some time with an error message, or never
settles. -/
inductive PromiseOutcome (T : Type) where
  | resolves (t : Nat) (v : T)
  | rejects (t : Nat) (msg : String)
  | never
  deriving DecidableEq, Repr

/-- The typed timeout error of the error taxonomy (§7): the wrapped
operation's name and the configured bound in milliseconds. -/
structure TimeoutError where
  operation : String
  boundMs : Nat
  deriving DecidableEq, Repr

/-- How the wrapped call settles: with the operation's value or rejection at
the operation's own settle time, or with the typed timeout error at the
bound. -/
inductive TimeoutOutcome (T : Type) where
  | ok (t : Nat) (v : T)
  | err (t : Nat) (msg : String)
  | timedOut (t : Nat) (e : TimeoutError)
  deriving DecidableEq, Repr

/-- Events on the timer resource during one wrapped call: the timer is set by
`setTimeout`, fires when the bound elapses, and is cleared by
`clearTimeout`. -/
inductive TimerEvent where
  | set
  | fired
  | cleared
  deriving DecidableEq, Repr

/-- Modelled from the spec: `withTimeout` (`reconciler.js`, absent from the
sources; §4.5 and the reconciler tests).  The timer is set when the call
starts and is due at the bound `ms`.  A settlement of the operation strictly
before the bound clears the timer and propagates the operation's value or
rejection; otherwise the timer fires at the bound and the call rejects with
the typed timeout error carrying the operation name and the bound.  When the
operation settles at a finite time at or after the bound, its continuation
still calls `clearTimeout` on the already-fired timer (a no-op). -/
def withTimeout {T : Type} (p : PromiseOutcome T) (ms : Nat)
    (operation : String) : TimeoutOutcome T × List TimerEvent :=
  match p with
  | PromiseOutcome.resolves t v =>
    if t < ms then (TimeoutOutcome.ok t v, [TimerEvent.set, TimerEvent.cleared])
    else
      (TimeoutOutcome.timedOut ms { operation := operation, boundMs := ms },
        [TimerEvent.set, TimerEvent.fired, TimerEvent.cleared])
  | PromiseOutcome.rejects t msg =>
    if t < ms then
      (TimeoutOutcome.err t msg, [TimerEvent.set, TimerEvent.cleared])
    else
      (TimeoutOutcome.timedOut ms { operation := operation, boundMs := ms },
        [TimerEvent.set, TimerEvent.fired, TimerEvent.cleared])
  | PromiseOutcome.never =>
    (TimeoutOutcome.timedOut ms { operation := operation, boundMs := ms },
      [TimerEvent.set, TimerEvent.fired])

/-- The timer resource is released when it either fired or was cleared. -/
def timerReleased (events : List TimerEvent) : Bool :=
  events.contains TimerEvent.fired || events.contains TimerEvent.cleared

/-! ## Architecture selection in creation payloads

The RunnerManager and PoolManager component implementations are absent from
the sources; the payload rule is fixed by §3's invariant and exercised by
both component test files. -/

/-- The isolation type selected in the creation form. -/
inductive IsolationType where
  | native
  | docker
  deriving DecidableEq, Repr

/-- The target architecture selectable in the creation form. -/
inductive Architecture where
  | arm64
  | x64
  deriving DecidableEq, Repr

/-- A runner or pool creation payload as submitted to the create API:
`architecture` is `none` when the field is left `undefined`. -/
structure CreatePayload where
  name : String
  isolationType : IsolationType
  architecture : Option Architecture
  deriving DecidableEq, Repr

/-- Modelled from the spec: the creation-form submission of the RunnerManager
and PoolManager components (their implementation files are absent from the
sources; §3's invariant "architecture is unset/ignored when isolation type is
native" and both component test files).  The submitted payload carries the
selected architecture only under docker isolation and leaves the field
undefined under native isolation, whatever architecture the form holds. -/
def buildCreatePayload (name : String) (isolationType : IsolationType)
    (selectedArchitecture : Architecture) : CreatePayload :=
  { name := name
    isolationType := isolationType
    architecture :=
      if isolationType = IsolationType.docker then some selectedArchitecture
      else none }

/-! ## Installation-token cache

The cache behind app-kind resolutions lives in the `GitHubAppClient`
(`githubApp.js`, absent from the sources); its behaviour is fixed by §4.1 and
§5 of the spec. -/

/-- A cached installation token: the minted token and its expiry time. -/
structure CachedToken where
  token : String
  expiresAt : Nat
  deriving DecidableEq, Repr

/-- The installation-token cache, keyed by installation id. -/
abbrev TokenCache := List (Int × CachedToken)

/-- Look up the cache entry for an installation id. -/
def cacheLookup (cache : TokenCache) (instId : Int) : Option CachedToken :=
  match cache.find? fun p => p.1 = instId with
  | some p => some p.2
  | none => none

/-- Modelled from the spec: the validity check with safety margin (§4.1): a
cached installation token is reused only when the current time plus the
safety margin is still before its expiry; a token closer to expiry triggers a
re-mint instead. -/
def lookupValid (cache : TokenCache) (instId : Int) (now margin : Nat) :
    Option CachedToken :=
  match cacheLookup cache instId with
  | some ct => if now + margin < ct.expiresAt then some ct else none
  | none => none

/-- Modelled from the spec: the single-flighted mint-or-reuse of an
installation token (§4.1 and §5; the `GitHubAppClient` implementation is
absent from the sources).  The `mint` oracle is the network token exchange:
invoked at a given time it returns a token and that token's expiry.  A valid
cached token is returned with no exchange; otherwise one exchange is
performed and its result cached under the installation id.  The single-flight
guard of §5 serializes concurrent resolutions of the same installation id, so
a pair of concurrent resolutions executes as one of the two sequential
orders.  Returns the token, the updated cache and the number of exchanges
performed. -/
def resolveAppToken (cache : TokenCache) (instId : Int) (now margin : Nat)
    (mint : Nat → String × Nat) : String × TokenCache × Nat :=
  match lookupValid cache instId now margin with
  | some ct => (ct.token, cache, 0)
  | none =>
    let minted := mint now
    (minted.1, (instId, { token := minted.1, expiresAt := minted.2 }) :: cache, 1)

end ActionPacker

namespace ActionPacker

/-- C2: a PAT credential resolves to exactly the decryption of its sealed
secret, with scope and target copied verbatim from the record, and performs
no network token exchange. -/
theorem C2_pat_resolves_to_decrypted_secret (env : ResolverEnv)
    (credential : CredentialRow) (h : credential.type = CredType.pat) :
    resolveCredentialToken env credential =
      (Except.ok
        { token := env.decrypt
            { encrypted := credential.encrypted_token
              iv := credential.iv
              authTag := credential.auth_tag }
          scope := credential.scope
          target := credential.target
          type := CredType.pat
          installationId := none }, 0) := by
  simp [resolveCredentialToken, h]

/-- Witness for C2 at a concrete PAT credential and environment. -/
theorem C2_pat_resolves_to_decrypted_secret_witness :
    resolveCredentialToken
      { decrypt := fun e => e.encrypted ++ e.iv
        githubApp := none
        exchangeToken := fun _ => "net" }
      { id := "c1", type := CredType.pat, scope := "repo",
        target := "owner/repo", encrypted_token := "abc", iv := "X",
        auth_tag := "t", installation_id := none } =
      (Except.ok
        { token := "abcX", scope := "repo", target := "owner/repo",
          type := CredType.pat, installationId := none }, 0) := by
  have h := C2_pat_resolves_to_decrypted_secret
    { decrypt := fun e => e.encrypted ++ e.iv
      githubApp := none
      exchangeToken := fun _ => "net" }
    { id := "c1", type := CredType.pat, scope := "repo",
      target := "owner/repo", encrypted_token := "abc", iv := "X",
      auth_tag := "t", installation_id := none } rfl
  simpa using h

/-- C4: an app-kind credential whose installation id is absent fails with the
missing-installation error and performs no network exchange, in every
environment. -/
theorem C4_app_without_installation_fails (env : ResolverEnv)
    (credential : CredentialRow) (h : credential.type = CredType.github_app)
    (hmiss : credential.installation_id = none) :
    resolveCredentialToken env credential =
      (Except.error ResolveError.MissingInstallation, 0) := by
  simp [resolveCredentialToken, h, hmiss, numTruthy]

/-- Witness for C4 at a concrete app credential with no installation id. -/
theorem C4_app_without_installation_fails_witness :
    resolveCredentialToken
      { decrypt := fun e => e.encrypted
        githubApp := some
          { app_id := "1", client_id := "cid", encrypted_private_key := "pk",
            private_key_iv := "iv", private_key_auth_tag := "tag" }
        exchangeToken := fun _ => "net" }
      { id := "c2", type := CredType.github_app, scope := "org",
        target := "my-org", encrypted_token := "e", iv := "i",
        auth_tag := "a", installation_id := none } =
      (Except.error ResolveError.MissingInstallation, 0) :=
  C4_app_without_installation_fails _ _ rfl rfl

/-- C5: an app-kind credential that carries an installation id (present in the
code's sense: the JS guard `!credential.installation_id` does not fire) fails
with the not-configured error when the app configuration row is absent; the
failure is a returned error value of the total function, not a crash, and no
exchange is performed. -/
theorem C5_app_unconfigured_fails (env : ResolverEnv)
    (credential : CredentialRow) (h : credential.type = CredType.github_app)
    (hinst : numTruthy credential.installation_id = true)
    (hnoapp : env.githubApp = none) :
    resolveCredentialToken env credential =
      (Except.error ResolveError.NotConfigured, 0) := by
  simp [resolveCredentialToken, h, hinst, hnoapp]

/-- Witness for C5 at a concrete app credential and an environment with no app
configuration row. -/
theorem C5_app_unconfigured_fails_witness :
    resolveCredentialToken
      { decrypt := fun e => e.encrypted
        githubApp := none
        exchangeToken := fun _ => "net" }
      { id := "c3", type := CredType.github_app, scope := "org",
        target := "my-org", encrypted_token := "e", iv := "i",
        auth_tag := "a", installation_id := some 77 } =
      (Except.error ResolveError.NotConfigured, 0) :=
  C5_app_unconfigured_fails _ _ rfl rfl rfl

/-- C10: the installation-id check precedes the app-configuration lookup.
First conjunct: an app-kind credential lacking an installation id fails with
the missing-installation error in every environment, in particular when the
app configuration row is also absent.  Second conjunct: whenever resolution
fails with the not-configured error, the credential carried an installation id
(in the code's sense: the JS presence guard passed). -/
theorem C10_missing_installation_before_configuration
    (env : ResolverEnv) (credential : CredentialRow) :
    (credential.type = CredType.github_app →
      credential.installation_id = none →
      resolveCredentialToken env credential =
        (Except.error ResolveError.MissingInstallation, 0)) ∧
    ((resolveCredentialToken env credential).1 =
        Except.error ResolveError.NotConfigured →
      numTruthy credential.installation_id = true) := by
  constructor
  · intro h hmiss
    simp [resolveCredentialToken, h, hmiss, numTruthy]
  · intro hout
    by_cases hpat : credential.type = CredType.pat
    · simp [resolveCredentialToken, hpat] at hout
    · by_cases hinst : numTruthy credential.installation_id
      · exact hinst
      · simp [resolveCredentialToken, hpat, hinst] at hout

/-- Witness for C10: both conjuncts discharged at a concrete credential with
no installation id and no app configuration row. -/
theorem C10_missing_installation_before_configuration_witness :
    resolveCredentialToken
      { decrypt := fun e => e.encrypted
        githubApp := none
        exchangeToken := fun _ => "net" }
      { id := "c4", type := CredType.github_app, scope := "repo",
        target := "o/r", encrypted_token := "e", iv := "i",
        auth_tag := "a", installation_id := none } =
      (Except.error ResolveError.MissingInstallation, 0) :=
  (C10_missing_installation_before_configuration
      { decrypt := fun e => e.encrypted
        githubApp := none
        exchangeToken := fun _ => "net" }
      { id := "c4", type := CredType.github_app, scope := "repo",
        target := "o/r", encrypted_token := "e", iv := "i",
        auth_tag := "a", installation_id := none }).1 rfl rfl

/-- C6: a wrapped operation that never settles rejects exactly at the
configured bound with the typed timeout error carrying the operation name and
the bound; and in every outcome — resolution, rejection or timeout — the
timer resource is released. -/
theorem C6_timeout_bound_and_timer_release (T : Type) (ms : Nat)
    (operation : String) :
    withTimeout (PromiseOutcome.never : PromiseOutcome T) ms operation =
      (TimeoutOutcome.timedOut ms { operation := operation, boundMs := ms },
        [TimerEvent.set, TimerEvent.fired]) ∧
    ∀ p : PromiseOutcome T,
      timerReleased (withTimeout p ms operation).2 = true := by
  refine ⟨rfl, ?_⟩
  intro p
  cases p with
  | resolves t v =>
    by_cases h : t < ms <;> simp [withTimeout, h, timerReleased]
  | rejects t msg =>
    by_cases h : t < ms <;> simp [withTimeout, h, timerReleased]
  | never => simp [withTimeout, timerReleased]

/-- C9: a creation payload built with native isolation carries no
architecture, whatever architecture the form holds; one built with docker
isolation carries the selected architecture. -/
theorem C9_architecture_only_for_docker (name : String)
    (selectedArchitecture : Architecture) :
    (buildCreatePayload name IsolationType.native
        selectedArchitecture).architecture = none ∧
    (buildCreatePayload name IsolationType.docker
        selectedArchitecture).architecture = some selectedArchitecture := by
  constructor <;> rfl

/-- C3: two resolutions of app-kind credentials for the same installation id,
serialized by the single-flight guard and starting from a cache with no entry
for that id, perform exactly one token exchange in total when the second runs
within the first token's validity window: the first mints, the second is
served the same token from the cache with no exchange. -/
theorem C3_second_resolution_cache_hit (instId : Int) (t1 t2 margin : Nat)
    (mint : Nat → String × Nat)
    (hvalid : t2 + margin < (mint t1).2) :
    (resolveAppToken [] instId t1 margin mint).2.2 +
        (resolveAppToken
          (resolveAppToken [] instId t1 margin mint).2.1
          instId t2 margin mint).2.2 = 1 ∧
    (resolveAppToken
        (resolveAppToken [] instId t1 margin mint).2.1
        instId t2 margin mint).2.2 = 0 ∧
    (resolveAppToken
        (resolveAppToken [] instId t1 margin mint).2.1
        instId t2 margin mint).1 =
      (resolveAppToken [] instId t1 margin mint).1 := by
  have h1 : resolveAppToken [] instId t1 margin mint =
      ((mint t1).1,
        [(instId, { token := (mint t1).1, expiresAt := (mint t1).2 })], 1) := by
    simp [resolveAppToken, lookupValid, cacheLookup]
  rw [h1]
  have h2 : resolveAppToken
      [(instId, { token := (mint t1).1, expiresAt := (mint t1).2 })]
      instId t2 margin mint =
      ((mint t1).1,
        [(instId, { token := (mint t1).1, expiresAt := (mint t1).2 })], 0) := by
    simp [resolveAppToken, lookupValid, cacheLookup, List.find?, hvalid]
  rw [h2]
  exact ⟨rfl, rfl, rfl⟩

/-- Witness for C3 at a concrete installation id, times, margin and mint
oracle. -/
theorem C3_second_resolution_cache_hit_witness :
    (10 : Nat) + 5 < (("tok", 100) : String × Nat).2 ∧
    (resolveAppToken [] 42 0 5 (fun _ => ("tok", 100))).2.2 +
        (resolveAppToken
          (resolveAppToken [] 42 0 5 (fun _ => ("tok", 100))).2.1
          42 10 5 (fun _ => ("tok", 100))).2.2 = 1 :=
  ⟨by decide,
    (C3_second_resolution_cache_hit 42 0 10 5 (fun _ => ("tok", 100))
      (by decide)).1⟩

end ActionPacker
